import Mathlib

/-!
Verification of the satellite ground-track application (`src/main.py`).

The program builds a time series of observation instants from user-chosen
sliders, asks an orbital-mechanics library for the sub-satellite point at
each instant, collects the results into a four-column table, and renders
the table as a plot, an on-screen table and a downloadable CSV file.

Shallow embedding conventions:
* UTC instants are modelled as integer seconds since 2025-01-01 00:00 UTC.
  Skyfield's `Timescale.utc(year, month=1, day=1, hour=0, minute=0,
  second=0.0)` receives the program's offset array as its sixth positional
  parameter `second`, so each instant is the calendar minute given by the
  first five arguments plus the offset in seconds; all offsets are whole
  seconds, so second-level granularity is exact.
* `numpy.arange` on non-negative integers is embedded by its documented
  semantics: the arithmetic progression starting at `start`, stepping by
  `step`, stopping strictly before `stop`.
* The satellite propagation (`EarthSatellite` / `.at(t).subpoint()`) is an
  external library call; it is embedded as an uninterpreted function
  argument producing a `Subpoint` record per instant.  The numeric carrier
  is `Int`; no claim depends on the numeric values produced.
* `pytz` timezone conversion is embedded by the IANA offset rules of the
  four selectable zones for the year 2025 (UTC and Asia/Kolkata have fixed
  offsets; US/Eastern and Europe/London switch at their 2025 DST
  boundaries).
-/

namespace SatTracker

/-- Slider `st.sidebar.slider("Duration (minutes)", 30, 240, 90, 10)`:
the selectable duration values. -/
def durationValid (d : Nat) : Prop := 30 ≤ d ∧ d ≤ 240 ∧ d % 10 = 0

instance (d : Nat) : Decidable (durationValid d) :=
  inferInstanceAs (Decidable (30 ≤ d ∧ d ≤ 240 ∧ d % 10 = 0))

/-- Slider `st.sidebar.slider("Time Step (seconds)", 10, 120, 30, 10)`:
the selectable time-step values. -/
def timeStepValid (s : Nat) : Prop := 10 ≤ s ∧ s ≤ 120 ∧ s % 10 = 0

instance (s : Nat) : Decidable (timeStepValid s) :=
  inferInstanceAs (Decidable (10 ≤ s ∧ s ≤ 120 ∧ s % 10 = 0))

/-- Embedding of `numpy.arange(start, stop, step)` on non-negative
integers: the arithmetic progression `start, start+step, ...` of all
values strictly below `stop`; its length is `⌈(stop−start)/step⌉`. -/
def arange (start stop step : Nat) : List Nat :=
  (List.range ((stop - start + step - 1) / step)).map (fun i => start + i * step)

/-- Source line 58: `minutes = np.arange(0, duration_minutes * 60, time_step)`.
Despite the variable's name, the values are second-counts covering the
requested duration, and they are passed to the `second` parameter of
`ts.utc`. -/
def minutes (duration_minutes time_step : Nat) : List Nat :=
  arange 0 (duration_minutes * 60) time_step

/-- Source lines 59-60: `observation_times = ts.utc(year, month, day, hour,
minute, minutes)`.  The sixth positional parameter of `Timescale.utc` is
`second`, so skyfield adds each entry of the offset array as SECONDS to
the calendar minute described by the first five arguments: the `i`-th
instant is the start minute plus `minutes[i]` seconds.  `startSec` is that
calendar minute (in seconds since 2025-01-01 00:00 UTC) built from
`start_time.year .. start_time.minute`; it is a whole multiple of 60. -/
def observation_times (startSec : Int) (duration_minutes time_step : Nat) : List Int :=
  List.map (fun (m : Nat) => startSec + (m : Int)) (minutes duration_minutes time_step)

/-- Source line 57: `start_time = datetime.now(pytz.utc)`, with lines 59-60
passing only `year, month, day, hour, minute` to `ts.utc`.  `nowUs` is the
wall-clock time in microseconds since 2025-01-01 00:00 UTC; the program keeps
only its whole-minute part. -/
def startMinuteOf (nowUs : Nat) : Nat := nowUs / 60000000

/-- The first observation instant expressed back in microseconds: the
wall-clock start truncated to the whole minute (seconds and microseconds
discarded). -/
def firstInstantUs (nowUs : Nat) : Nat := startMinuteOf nowUs * 60000000

/-- Ceiling-division bound used throughout: for positive `s`,
`k < ⌈D/s⌉ ↔ k*s < D` (with `⌈D/s⌉` written `(D + s - 1) / s`). -/
theorem lt_ceil_iff (D s k : Nat) (hs : 0 < s) :
    k < (D + s - 1) / s ↔ k * s < D := by
  rcases Nat.eq_zero_or_pos D with hD | hD
  · subst hD
    constructor
    · intro h
      exfalso
      have hle : (0 + s - 1) / s ≤ 0 := by
        have := (Nat.div_lt_iff_lt_mul hs).mpr (by omega : 0 + s - 1 < 1 * s)
        omega
      omega
    · intro h
      omega
  · rw [Nat.lt_iff_add_one_le, Nat.le_div_iff_mul_le hs, Nat.add_mul, Nat.one_mul]
    omega

theorem minutes_eq_range (d s : Nat) :
    minutes d s = (List.range ((d * 60 + s - 1) / s)).map (fun i => i * s) := by
  unfold minutes arange
  simp

theorem observation_times_eq_range (startSec : Int) (d s : Nat) :
    observation_times startSec d s =
      (List.range ((d * 60 + s - 1) / s)).map (fun i => startSec + ((i * s : Nat) : Int)) := by
  unfold observation_times
  rw [minutes_eq_range, List.map_map]
  rfl

theorem length_minutes (d s : Nat) :
    (minutes d s).length = (d * 60 + s - 1) / s := by
  rw [minutes_eq_range]
  simp

theorem length_observation_times (startSec : Int) (d s : Nat) :
    (observation_times startSec d s).length = (minutes d s).length := by
  unfold observation_times
  rw [List.length_map]

theorem getElem?_observation_times (startSec : Int) (d s i : Nat)
    (hi : i < (minutes d s).length) :
    (observation_times startSec d s)[i]? = some (startSec + ((i * s : Nat) : Int)) := by
  rw [observation_times_eq_range, List.getElem?_map]
  rw [length_minutes] at hi
  rw [List.getElem?_range hi]
  rfl

theorem mem_minutes_iff (d s m : Nat) (hs : 0 < s) :
    m ∈ minutes d s ↔ ∃ k, m = k * s ∧ m < d * 60 := by
  rw [minutes_eq_range]
  simp only [List.mem_map, List.mem_range]
  constructor
  · rintro ⟨k, hk, rfl⟩
    refine ⟨k, rfl, ?_⟩
    have := (lt_ceil_iff (d * 60) s k hs).mp hk
    omega
  · rintro ⟨k, rfl, hlt⟩
    exact ⟨k, (lt_ceil_iff (d * 60) s k hs).mpr (by omega), rfl⟩

/-- C9 counterexample: the claim reads the offsets as landing in a minutes
parameter of the timescale constructor.  In fact `Timescale.utc`'s sixth
positional parameter is `second`: at the valid sliders duration = 30,
step = 30 and start minute 0, the second observation instant is 30 SECONDS
after the start — not the 30 minutes (1800 seconds) the claim implies —
and the last (60th) instant lies 1770 seconds in, so the window spans just
under `duration_minutes` minutes (1800 s), not `duration_minutes * 60`
minutes (108000 s). -/
theorem c9_counterexample :
    durationValid 30 ∧ timeStepValid 30
    ∧ (observation_times 0 30 30)[1]? = some 30
    ∧ (observation_times 0 30 30)[1]? ≠ some ((1 * 30 * 60 : Nat) : Int)
    ∧ (observation_times 0 30 30)[59]? = some 1770
    ∧ (observation_times 0 30 30)[60]? = none
    ∧ (1770 : Int) < 30 * 60 * 60 := by
  refine ⟨by decide, by decide, by decide, ?_, by decide, by decide, by decide⟩
  intro h
  rw [(by decide : (observation_times 0 30 30)[1]? = some 30)] at h
  simp at h

/-- C9 amended: the second-count offsets produced by
`np.arange(0, duration_minutes*60, time_step)` are passed to the `second`
parameter of `ts.utc`, so the `i`-th observation instant is the start
instant plus `i * time_step` SECONDS, there are `⌈duration/step⌉` of them,
and the simulated window spans just under `duration_minutes * 60` seconds
— that is, `duration_minutes` minutes, as the sliders intend. -/
theorem c9_offsets_applied_as_seconds (startSec : Int) (d s : Nat)
    (hs : 0 < s) (hsd : s ≤ d * 60) :
    (∀ i, i < (minutes d s).length →
        (observation_times startSec d s)[i]? = some (startSec + ((i * s : Nat) : Int)))
    ∧ (minutes d s).length = (d * 60 + s - 1) / s
    ∧ d * 60 - s ≤ ((minutes d s).length - 1) * s
    ∧ ((minutes d s).length - 1) * s < d * 60 := by
  have hlen := length_minutes d s
  have hpos : 1 ≤ (minutes d s).length := by
    rw [hlen]
    have := (lt_ceil_iff (d * 60) s 0 hs).mpr (by omega)
    omega
  have hub : ((minutes d s).length - 1) * s < d * 60 := by
    have := (lt_ceil_iff (d * 60) s ((minutes d s).length - 1) hs).mp (by omega)
    omega
  have hlb : d * 60 ≤ (minutes d s).length * s := by
    by_contra hcon
    have := (lt_ceil_iff (d * 60) s ((minutes d s).length) hs).mpr (by omega)
    omega
  have hstep : ((minutes d s).length - 1) * s + s = (minutes d s).length * s := by
    have h1 : (minutes d s).length - 1 + 1 = (minutes d s).length := by omega
    calc ((minutes d s).length - 1) * s + s
        = ((minutes d s).length - 1 + 1) * s := by ring
      _ = (minutes d s).length * s := by rw [h1]
  exact ⟨fun i hi => getElem?_observation_times startSec d s i hi, hlen, by omega, hub⟩

theorem c9_amended_witness :
    0 < 30 ∧ 30 ≤ 30 * 60 ∧
      (observation_times 0 30 30)[1]? = some 30 ∧
      (minutes 30 30).length = (30 * 60 + 30 - 1) / 30 := by
  refine ⟨by decide, by decide, ?_,
    (c9_offsets_applied_as_seconds 0 30 30 (by decide) (by decide)).2.1⟩
  have h := (c9_offsets_applied_as_seconds 0 30 30 (by decide) (by decide)).1 1 (by decide)
  simpa using h

/-- C10: the first observation instant is the wall-clock UTC start time
truncated to the whole minute: it never exceeds the actual start time, it
falls short of it by strictly less than one minute (60000000 microseconds),
it lies on an exact minute boundary, it is (converted to seconds) the head
of the observation time series since the first offset is 0, and the
shortfall can be as large as 59999999 microseconds. -/
theorem c10_start_truncated_to_minute (nowUs : Nat) (d s : Nat)
    (hs : 0 < s) (hd : 0 < d) :
    firstInstantUs nowUs ≤ nowUs
    ∧ nowUs - firstInstantUs nowUs < 60000000
    ∧ firstInstantUs nowUs % 60000000 = 0
    ∧ (observation_times ((startMinuteOf nowUs * 60 : Nat) : Int) d s)[0]?
        = some ((startMinuteOf nowUs * 60 : Nat) : Int)
    ∧ firstInstantUs 59999999 = 0 := by
  unfold firstInstantUs startMinuteOf
  refine ⟨Nat.div_mul_le_self _ _, ?_, Nat.mul_mod_left _ _, ?_, by decide⟩
  · have h1 := Nat.div_add_mod nowUs 60000000
    have h2 := Nat.mod_lt nowUs (show 0 < 60000000 by decide)
    omega
  · have hlen : 0 < (minutes d s).length := by
      rw [length_minutes]
      have := (lt_ceil_iff (d * 60) s 0 hs).mpr (by omega)
      omega
    have h := getElem?_observation_times ((nowUs / 60000000 * 60 : Nat) : Int) d s 0 hlen
    simpa using h

theorem c10_witness :
    0 < 30 ∧ 0 < 30 ∧
      firstInstantUs 90000001 ≤ 90000001 ∧ firstInstantUs 59999999 = 0 := by
  have h := c10_start_truncated_to_minute 90000001 30 30 (by decide) (by decide)
  exact ⟨by decide, by decide, h.1, h.2.2.2.2⟩

/-- Source lines 51-53: `timezone_list = ['UTC', 'Asia/Kolkata', 'US/Eastern',
'Europe/London']` and `tz = pytz.timezone(selected_tz)`. -/
inductive Tz where
  | utc
  | kolkata
  | usEastern
  | london
deriving DecidableEq, Repr

def timezone_list : List Tz := [.utc, .kolkata, .usEastern, .london]

/-- Cumulative day counts before each month of 2025 (not a leap year);
month is 1-based. -/
def daysBefore2025 (month : Nat) : Nat :=
  [0, 31, 59, 90, 120, 151, 181, 212, 243, 273, 304, 334].getD (month - 1) 0

/-- Seconds since 2025-01-01 00:00 UTC of a 2025 calendar datetime. -/
def sec2025 (month day hour minute : Nat) : Int :=
  ((((daysBefore2025 month + (day - 1)) * 24 + hour) * 60 + minute) * 60 : Nat)

/-- Embedding of the `pytz` UTC-offset (in seconds) of the four selectable
zones, for instants inside the year 2025 (IANA tzdata 2025 rules):
UTC is fixed at 0, Asia/Kolkata fixed at +19800 (+05:30); US/Eastern is
−14400 (EDT) between 2025-03-09 07:00 UTC and 2025-11-02 06:00 UTC and
−18000 (EST) otherwise; Europe/London is +3600 (BST) between 2025-03-30
01:00 UTC and 2025-10-26 01:00 UTC and 0 (GMT) otherwise. -/
def tzOffsetSec : Tz → Int → Int
  | .utc, _ => 0
  | .kolkata, _ => 19800
  | .usEastern, t => if sec2025 3 9 7 0 ≤ t ∧ t < sec2025 11 2 6 0 then -14400 else -18000
  | .london, t => if sec2025 3 30 1 0 ≤ t ∧ t < sec2025 10 26 1 0 then 3600 else 0

/-- Source line 68: `local_time = datetime.strptime(t.utc_iso(), ...)
.replace(tzinfo=pytz.utc).astimezone(tz)`.  The local wall-clock reading of
a UTC instant, as seconds since 2025-01-01 00:00 in the local calendar.
Source line 69 renders it with `strftime('%Y-%m-%d %H:%M:%S')`, a
fixed-width big-endian format, so the order of the displayed strings is
the order of these values. -/
def localStamp (tz : Tz) (t : Int) : Int := t + tzOffsetSec tz t

/-- The sequence of local wall-clock readings stored in the `Timestamp`
column, one per observation instant, in loop order. -/
def stampValues (startSec : Int) (d s : Nat) (tz : Tz) : List Int :=
  (observation_times startSec d s).map (localStamp tz)

/-- A timezone whose UTC offset does not vary over time (no DST). -/
def fixedOffset (tz : Tz) : Prop := ∀ t u : Int, tzOffsetSec tz t = tzOffsetSec tz u

/-! ### Rendering of numbers and timestamps as character strings -/

def digitList : List Char := ['0', '1', '2', '3', '4', '5', '6', '7', '8', '9']

def digitChar (r : Nat) : Char := digitList.getD r '0'

/-- Decimal digits of `n`, most significant first, accumulator form; the
first argument is recursion fuel (any value above the digit count works). -/
def natCharsCore : Nat → Nat → List Char → List Char
  | 0, _, acc => acc
  | fuel + 1, n, acc =>
    if n < 10 then digitChar n :: acc
    else natCharsCore fuel (n / 10) (digitChar (n % 10) :: acc)

def natChars (n : Nat) : List Char := natCharsCore (n + 1) n []

/-- Decimal rendering of an integer (the CSV cell text of a numeric value;
an abstraction of the repository's pandas float rendering, which likewise
uses only digits, `-` and `.`, never a comma or a newline). -/
def intChars (i : Int) : List Char :=
  if i < 0 then '-' :: natChars i.natAbs else natChars i.natAbs

/-- Zero-padding to width `w`, as in `strftime`'s `%m`, `%d`, `%H`, `%M`, `%S`. -/
def padChars (w n : Nat) : List Char :=
  List.replicate (w - (natChars n).length) '0' ++ natChars n

def isLeap (y : Nat) : Bool := y % 4 = 0 && (y % 100 != 0 || y % 400 = 0)

def daysInYear (y : Nat) : Nat := if isLeap y then 366 else 365

/-- Walks years forward from `y`: returns the year containing day offset
`day` and the remaining day-of-year; the first argument is recursion fuel
(any value above the number of whole years in `day` works). -/
def yearOfDaysCore : Nat → Nat → Nat → Nat × Nat
  | 0, y, day => (y, day)
  | fuel + 1, y, day =>
    if day < daysInYear y then (y, day)
    else yearOfDaysCore fuel (y + 1) (day - daysInYear y)

def yearOfDays (y day : Nat) : Nat × Nat := yearOfDaysCore (day + 1) y day

def monthLengths (leap : Bool) : List Nat :=
  [31, if leap then 29 else 28, 31, 30, 31, 30, 31, 31, 30, 31, 30, 31]

/-- Walks the month-length table: returns the 1-based month and day for a
0-based day-of-year. -/
def monthDayOfDoy : List Nat → Nat → Nat → Nat × Nat
  | [], m, doy => (m, doy + 1)
  | len :: rest, m, doy =>
    if doy < len then (m, doy + 1) else monthDayOfDoy rest (m + 1) (doy - len)

/-- Source lines 68-69: `strftime('%Y-%m-%d %H:%M:%S')` applied to a local
wall-clock value `v` in seconds since 2025-01-01 00:00; the seconds field
shows the instant's second-of-minute (`t.utc_iso()` carries whole
seconds).  Negative values are clamped to the epoch; the program only
ever formats non-negative values. -/
def fmtTimestamp (v : Int) : List Char :=
  let m := v.toNat
  let date := yearOfDays 2025 (m / 86400)
  let md := monthDayOfDoy (monthLengths (isLeap date.1)) 1 date.2
  padChars 4 date.1 ++ '-' :: padChars 2 md.1 ++ '-' :: padChars 2 md.2
    ++ ' ' :: padChars 2 (m % 86400 / 3600) ++ ':' :: padChars 2 (m % 86400 % 3600 / 60)
    ++ ':' :: padChars 2 (m % 86400 % 3600 % 60)

/-! ### The telemetry table -/

/-- Result of `satellite.at(t).subpoint()` as read on source lines 64-67:
`subpoint.latitude.degrees`, `subpoint.longitude.degrees`,
`subpoint.elevation.km`. -/
structure Subpoint where
  latitude_degrees : Int
  longitude_degrees : Int
  elevation_km : Int

/-- Source lines 72-77: `pd.DataFrame({'Timestamp': ..., 'Latitude': ...,
'Longitude': ..., 'Altitude (km)': ...})` — the column names in insertion
order together with the four column value lists built by the loop on lines
62-69. -/
structure DataFrame where
  columns : List (List Char)
  timestamps : List (List Char)
  lats : List Int
  lons : List Int
  alts : List Int

def df_columns : List (List Char) :=
  ["Timestamp".toList, "Latitude".toList, "Longitude".toList, "Altitude (km)".toList]

/-- Source lines 62-77: the loop walks `observation_times` in order and
appends one latitude, longitude, altitude and localized timestamp string
per instant; the dataframe is assembled from the four lists.  The orbital
propagator enters only through the uninterpreted `sat` argument. -/
def buildDF (sat : Int → Subpoint) (startSec : Int) (d s : Nat) (tz : Tz) : DataFrame where
  columns := df_columns
  timestamps := (observation_times startSec d s).map (fun t => fmtTimestamp (localStamp tz t))
  lats := (observation_times startSec d s).map (fun t => (sat t).latitude_degrees)
  lons := (observation_times startSec d s).map (fun t => (sat t).longitude_degrees)
  alts := (observation_times startSec d s).map (fun t => (sat t).elevation_km)

def nrows (df : DataFrame) : Nat := df.timestamps.length

/-- A concrete satellite model, used only to instantiate witnesses and
counterexamples (no claim depends on the numeric subpoint values). -/
def satConst : Int → Subpoint := fun _ => ⟨0, 0, 0⟩

/-- C1: for every satellite, start minute, display timezone and valid slider
setting, the table has exactly one row per step-offset of the configured
duration/step grid: every column has one entry per element of the `minutes`
offset array, that array consists of exactly the multiples of the step below
the duration bound (so it has `⌈duration/step⌉` entries), and the `i`-th row
is computed from the `i`-th observation instant. -/
theorem c1_one_row_per_time_step (sat : Int → Subpoint) (startSec : Int)
    (d s : Nat) (tz : Tz) (hs : 0 < s) :
    nrows (buildDF sat startSec d s tz) = (minutes d s).length
    ∧ (buildDF sat startSec d s tz).lats.length = (minutes d s).length
    ∧ (buildDF sat startSec d s tz).lons.length = (minutes d s).length
    ∧ (buildDF sat startSec d s tz).alts.length = (minutes d s).length
    ∧ (minutes d s).length = (d * 60 + s - 1) / s
    ∧ (∀ m, m ∈ minutes d s ↔ ∃ k, m = k * s ∧ m < d * 60)
    ∧ (∀ i : Nat, (buildDF sat startSec d s tz).timestamps[i]? =
        ((observation_times startSec d s)[i]?).map (fun t => fmtTimestamp (localStamp tz t)))
    ∧ (∀ i : Nat, (buildDF sat startSec d s tz).lats[i]? =
        ((observation_times startSec d s)[i]?).map (fun t => (sat t).latitude_degrees)) := by
  refine ⟨?_, ?_, ?_, ?_, length_minutes d s, fun m => mem_minutes_iff d s m hs, ?_, ?_⟩
  · unfold nrows buildDF
    simp [observation_times]
  · unfold buildDF
    simp [observation_times]
  · unfold buildDF
    simp [observation_times]
  · unfold buildDF
    simp [observation_times]
  · intro i
    unfold buildDF
    simp
  · intro i
    unfold buildDF
    simp

theorem c1_witness :
    0 < 30 ∧ nrows (buildDF satConst 0 30 30 Tz.utc) = (minutes 30 30).length
      ∧ (minutes 30 30).length = 60 :=
  ⟨by decide, (c1_one_row_per_time_step satConst 0 30 30 Tz.utc (by decide)).1, by decide⟩

/-! ### Monotonicity of the timestamp column -/

theorem chain'_lt_of_map_range (f : Nat → Int) (n : Nat)
    (hf : ∀ i j, i < j → f i < f j) :
    List.Chain' (· < ·) ((List.range n).map f) :=
  ((List.pairwise_lt_range n).map f (fun a b h => hf a b h)).chain'

theorem chain'_lt_getElem? :
    ∀ (l : List Int), List.Chain' (· < ·) l →
      ∀ i a b, l[i]? = some a → l[i + 1]? = some b → a < b := by
  intro l
  induction l with
  | nil =>
    intro _ i a b ha _
    simp at ha
  | cons x xs ih =>
    intro h i a b ha hb
    match i, xs, h, ha, hb with
    | 0, [], _, _, hb => simp at hb
    | 0, y :: ys, h, ha, hb =>
      rw [List.chain'_cons] at h
      simp only [List.getElem?_cons_zero, Option.some.injEq] at ha
      simp only [List.getElem?_cons_succ, List.getElem?_cons_zero,
        Option.some.injEq] at hb
      omega
    | i + 1, xs, h, ha, hb =>
      simp only [List.getElem?_cons_succ] at ha hb
      exact ih h.tail i a b ha hb

/-- C2 amended: the underlying UTC observation instants are always strictly
increasing, and the displayed timestamp column is strictly increasing for
every display timezone whose UTC offset is constant over time (UTC and
Asia/Kolkata among the selectable zones).  For the DST-observing zones the
displayed column can decrease across a fall-back transition (see the
counterexample). -/
theorem mul_step_cast_lt (s : Nat) (hs : 0 < s) :
    ∀ i j : Nat, i < j → ((i * s : Nat) : Int) < ((j * s : Nat) : Int) := by
  intro i j hij
  have : i * s < j * s := (Nat.mul_lt_mul_right hs).mpr hij
  exact_mod_cast this

theorem observation_times_chain (startSec : Int) (d s : Nat) (hs : 0 < s) :
    List.Chain' (· < ·) (observation_times startSec d s) := by
  rw [observation_times_eq_range]
  exact chain'_lt_of_map_range _ _ (fun i j hij => by
    have := mul_step_cast_lt s hs i j hij
    omega)

theorem c2_stamps_increasing_of_fixed_offset (startSec : Int) (d s : Nat)
    (tz : Tz) (hs : 0 < s) :
    List.Chain' (· < ·) (observation_times startSec d s)
    ∧ (fixedOffset tz → List.Chain' (· < ·) (stampValues startSec d s tz)) := by
  have hmul := mul_step_cast_lt s hs
  constructor
  · exact observation_times_chain startSec d s hs
  · intro hfix
    unfold stampValues
    rw [observation_times_eq_range, List.map_map]
    refine chain'_lt_of_map_range _ _ (fun i j hij => ?_)
    simp only [Function.comp]
    unfold localStamp
    have hoff := hfix (startSec + ((i * s : Nat) : Int)) (startSec + ((j * s : Nat) : Int))
    have := hmul i j hij
    omega

theorem c2_witness :
    0 < 30 ∧ List.Chain' (· < ·) (stampValues 26372700 30 30 Tz.utc) :=
  ⟨by decide,
    (c2_stamps_increasing_of_fixed_offset 26372700 30 30 Tz.utc (by decide)).2
      (fun _ _ => rfl)⟩

/-- C2 counterexample: with the valid slider settings duration = 30
minutes and step = 30 seconds, the selectable display timezone US/Eastern,
and a render whose wall-clock start is 2025-11-02 05:45 UTC (second
26372700 of 2025), row 29 (instant 05:59:30 UTC) displays
`2025-11-02 01:59:30` (EDT) but row 30 (instant 06:00:00 UTC) displays
`2025-11-02 01:00:00` (EST): the timestamp column is NOT strictly
increasing for every display timezone — the DST fall-back reverses it. -/
theorem c2_counterexample :
    durationValid 30 ∧ timeStepValid 30 ∧ Tz.usEastern ∈ timezone_list
    ∧ (stampValues 26372700 30 30 Tz.usEastern)[29]? = some 26359170
    ∧ (stampValues 26372700 30 30 Tz.usEastern)[30]? = some 26355600
    ∧ (buildDF satConst 26372700 30 30 Tz.usEastern).timestamps[0]?
        = some "2025-11-02 01:45:00".toList
    ∧ (buildDF satConst 26372700 30 30 Tz.usEastern).timestamps[1]?
        = some "2025-11-02 01:45:30".toList
    ∧ (buildDF satConst 26372700 30 30 Tz.usEastern).timestamps[29]?
        = some "2025-11-02 01:59:30".toList
    ∧ (buildDF satConst 26372700 30 30 Tz.usEastern).timestamps[30]?
        = some "2025-11-02 01:00:00".toList
    ∧ ¬ List.Chain' (· < ·) (stampValues 26372700 30 30 Tz.usEastern) := by
  refine ⟨by decide, by decide, by decide, by decide, by decide, by decide, by decide,
    by decide, by decide, ?_⟩
  intro h
  have := chain'_lt_getElem? _ h 29 26359170 26355600 (by decide) (by decide)
  omega

/-! ### CSV export (source lines 104-115) -/

/-- The four cell texts of data row `i`: the timestamp string and the three
numeric values rendered in decimal. -/
def csvRowCells (df : DataFrame) (i : Nat) : List (List Char) :=
  [df.timestamps.getD i [], intChars (df.lats.getD i 0),
    intChars (df.lons.getD i 0), intChars (df.alts.getD i 0)]

/-- The displayed table as a grid of cell texts: the header row (column
names) followed by one row per data row, in order. -/
def csvTable (df : DataFrame) : List (List (List Char)) :=
  df.columns :: (List.range (nrows df)).map (csvRowCells df)

/-- One CSV record: the cells joined by commas. -/
def csvLine (cells : List (List Char)) : List Char := [','].intercalate cells

/-- Source line 109: `csv = df.to_csv(index=False).encode('utf-8')` — the
header line followed by one line per row, each record terminated by a
newline, no index column. -/
def to_csv (df : DataFrame) : List Char :=
  (((csvTable df).map csvLine).map (fun l => l ++ ['\n'])).flatten

/-- A standard CSV reader: split at newlines, discard the empty fragment
after the final terminator, split each record at commas. -/
def parseCsv (s : List Char) : List (List (List Char)) :=
  ((List.splitOn '\n' s).dropLast).map (List.splitOn ',')

theorem flatten_terminated_eq_intercalate (sep : Char) :
    ∀ ls : List (List Char),
      (ls.map (fun l => l ++ [sep])).flatten = [sep].intercalate (ls ++ [[]])
  | [] => by simp [List.intercalate]
  | [a] => by simp [List.intercalate, List.intersperse]
  | a :: b :: ls => by
    have ih := flatten_terminated_eq_intercalate sep (b :: ls)
    simp only [List.map_cons, List.flatten_cons] at ih ⊢
    show (a ++ [sep]) ++ _ = List.intercalate [sep] (a :: ((b :: ls) ++ [[]]))
    rw [List.intercalate, List.cons_append, List.intersperse_cons_cons,
      List.flatten_cons, List.flatten_cons]
    rw [List.intercalate] at ih
    rw [List.cons_append] at ih
    rw [← ih]
    simp

theorem mem_intercalate_single (sep : Char) :
    ∀ (ls : List (List Char)) (c : Char),
      c ∈ [sep].intercalate ls → c = sep ∨ ∃ l ∈ ls, c ∈ l
  | [], c => by simp [List.intercalate, List.intersperse]
  | [a], c => by
    simp [List.intercalate, List.intersperse]
    intro h
    exact Or.inr h
  | a :: b :: ls, c => by
    intro hc
    rw [List.intercalate, List.intersperse_cons_cons, List.flatten_cons,
      List.flatten_cons] at hc
    rcases List.mem_append.mp hc with h | h
    · exact Or.inr ⟨a, by simp, h⟩
    · rcases List.mem_append.mp h with h | h
      · exact Or.inl (by simpa using h)
      · rcases mem_intercalate_single sep (b :: ls) c (by rw [List.intercalate]; exact h) with h | ⟨l, hl, hcl⟩
        · exact Or.inl h
        · exact Or.inr ⟨l, by simp [List.mem_cons.mp hl], hcl⟩

theorem getD_mem_or {α : Type} (l : List α) (n : Nat) (d : α) :
    l.getD n d ∈ l ∨ l.getD n d = d := by
  induction l generalizing n with
  | nil => simp
  | cons x xs ih =>
    cases n with
    | zero =>
      rw [List.getD_cons_zero]
      exact Or.inl (List.mem_cons_self x xs)
    | succ n =>
      rw [List.getD_cons_succ]
      rcases ih n with h | h
      · exact Or.inl (List.mem_cons_of_mem x h)
      · exact Or.inr h

theorem digitChar_mem (r : Nat) : digitChar r ∈ digitList := by
  unfold digitChar
  rcases getD_mem_or digitList r '0' with h | h
  · exact h
  · rw [h]
    decide

theorem mem_natCharsCore (fuel : Nat) :
    ∀ n acc c, c ∈ natCharsCore fuel n acc → c ∈ digitList ∨ c ∈ acc := by
  induction fuel with
  | zero =>
    intro n acc c hc
    exact Or.inr hc
  | succ fuel ih =>
    intro n acc c hc
    rw [natCharsCore] at hc
    by_cases hn : n < 10
    · rw [if_pos hn] at hc
      rcases List.mem_cons.mp hc with h | h
      · exact Or.inl (h ▸ digitChar_mem n)
      · exact Or.inr h
    · rw [if_neg hn] at hc
      rcases ih (n / 10) (digitChar (n % 10) :: acc) c hc with h | h
      · exact Or.inl h
      · rcases List.mem_cons.mp h with h | h
        · exact Or.inl (h ▸ digitChar_mem (n % 10))
        · exact Or.inr h

theorem mem_natChars (n : Nat) (c : Char) (hc : c ∈ natChars n) : c ∈ digitList := by
  rcases mem_natCharsCore (n + 1) n [] c hc with h | h
  · exact h
  · simp at h

theorem mem_intChars (i : Int) (c : Char) (hc : c ∈ intChars i) :
    c = '-' ∨ c ∈ digitList := by
  unfold intChars at hc
  by_cases hneg : i < 0
  · rw [if_pos hneg] at hc
    rcases List.mem_cons.mp hc with h | h
    · exact Or.inl h
    · exact Or.inr (mem_natChars _ _ h)
  · rw [if_neg hneg] at hc
    exact Or.inr (mem_natChars _ _ hc)

theorem mem_padChars (w n : Nat) (c : Char) (hc : c ∈ padChars w n) :
    c ∈ digitList := by
  unfold padChars at hc
  rcases List.mem_append.mp hc with h | h
  · rw [List.eq_of_mem_replicate h]
    decide
  · exact mem_natChars _ _ h

theorem mem_fmtTimestamp (v : Int) (c : Char) (hc : c ∈ fmtTimestamp v) :
    c ∈ digitList ∨ c = '-' ∨ c = ' ' ∨ c = ':' := by
  unfold fmtTimestamp at hc
  simp only [List.mem_append, List.mem_cons] at hc
  rcases hc with ((((h | h | h) | h | h) | h | h) | h | h) | h | h
  all_goals first
    | exact Or.inl (mem_padChars _ _ _ h)
    | exact Or.inr (by tauto)

/-- A cell text that the CSV encoding transports verbatim: it contains
neither the field separator nor the record terminator. -/
def csvSafe (l : List Char) : Prop := ',' ∉ l ∧ '\n' ∉ l

theorem csvSafe_fmtTimestamp (v : Int) : csvSafe (fmtTimestamp v) := by
  constructor
  · intro h
    rcases mem_fmtTimestamp v ',' h with h | h | h | h <;> exact absurd h (by decide)
  · intro h
    rcases mem_fmtTimestamp v '\n' h with h | h | h | h <;> exact absurd h (by decide)

theorem csvSafe_intChars (i : Int) : csvSafe (intChars i) := by
  constructor
  · intro h
    rcases mem_intChars i ',' h with h | h <;> exact absurd h (by decide)
  · intro h
    rcases mem_intChars i '\n' h with h | h <;> exact absurd h (by decide)

theorem csvTable_row_length (sat : Int → Subpoint) (startSec : Int)
    (d s : Nat) (tz : Tz) :
    ∀ r ∈ csvTable (buildDF sat startSec d s tz), r.length = 4 := by
  intro r hr
  rcases List.mem_cons.mp hr with h | h
  · subst h
    rfl
  · rcases List.mem_map.mp h with ⟨i, _, rfl⟩
    rfl

theorem csvTable_cells_safe (sat : Int → Subpoint) (startSec : Int)
    (d s : Nat) (tz : Tz) :
    ∀ r ∈ csvTable (buildDF sat startSec d s tz), ∀ cell ∈ r, csvSafe cell := by
  intro r hr cell hcell
  rcases List.mem_cons.mp hr with h | h
  · subst h
    simp only [buildDF, df_columns, List.mem_cons, List.not_mem_nil, or_false] at hcell
    rcases hcell with rfl | rfl | rfl | rfl
    · exact ⟨by decide, by decide⟩
    · exact ⟨by decide, by decide⟩
    · exact ⟨by decide, by decide⟩
    · exact ⟨by decide, by decide⟩
  · rcases List.mem_map.mp h with ⟨i, _, rfl⟩
    simp only [csvRowCells, List.mem_cons, List.not_mem_nil, or_false] at hcell
    rcases hcell with rfl | rfl | rfl | rfl
    · rcases getD_mem_or (buildDF sat startSec d s tz).timestamps i [] with h | h
      · rcases List.mem_map.mp h with ⟨t, _, ht⟩
        rw [← ht]
        exact csvSafe_fmtTimestamp _
      · rw [h]
        exact ⟨by decide, by decide⟩
    · exact csvSafe_intChars _
    · exact csvSafe_intChars _
    · exact csvSafe_intChars _

theorem csvLine_no_newline (r : List (List Char)) (h : ∀ cell ∈ r, csvSafe cell) :
    '\n' ∉ csvLine r := by
  intro hmem
  rcases mem_intercalate_single ',' r '\n' hmem with h' | ⟨l, hl, hcl⟩
  · exact absurd h' (by decide)
  · exact (h l hl).2 hcl

/-- C4: decoding the exported CSV file recovers the displayed table exactly:
the parsed grid equals the displayed grid of cell texts, so the file has the
same row count as the table (plus the single header record), its first
record is exactly the column-name list, and every record has the table's
four columns. -/
theorem c4_csv_round_trip (sat : Int → Subpoint) (startSec : Int)
    (d s : Nat) (tz : Tz) :
    parseCsv (to_csv (buildDF sat startSec d s tz)) = csvTable (buildDF sat startSec d s tz)
    ∧ (parseCsv (to_csv (buildDF sat startSec d s tz))).length
        = nrows (buildDF sat startSec d s tz) + 1
    ∧ (parseCsv (to_csv (buildDF sat startSec d s tz)))[0]?
        = some (buildDF sat startSec d s tz).columns
    ∧ ∀ r ∈ parseCsv (to_csv (buildDF sat startSec d s tz)), r.length = 4 := by
  have hsafe := csvTable_cells_safe sat startSec d s tz
  have hlen4 := csvTable_row_length sat startSec d s tz
  have hmain : parseCsv (to_csv (buildDF sat startSec d s tz))
      = csvTable (buildDF sat startSec d s tz) := by
    unfold parseCsv to_csv
    rw [flatten_terminated_eq_intercalate]
    rw [List.splitOn_intercalate _ _ ?hnl ?hne]
    case hnl =>
      intro l hl
      rcases List.mem_append.mp hl with h | h
      · rcases List.mem_map.mp h with ⟨r, hr, rfl⟩
        exact csvLine_no_newline r (hsafe r hr)
      · simp only [List.mem_singleton] at h
        subst h
        simp
    case hne => simp
    rw [List.dropLast_concat, List.map_map]
    have hpt : ∀ r ∈ csvTable (buildDF sat startSec d s tz),
        (List.splitOn ',' ∘ csvLine) r = id r := by
      intro r hr
      have hr4 := hlen4 r hr
      have hrne : r ≠ [] := by
        intro hnil
        rw [hnil] at hr4
        simp at hr4
      exact List.splitOn_intercalate r ','
        (fun cell hc => (hsafe r hr cell hc).1) hrne
    rw [List.map_congr_left hpt, List.map_id]
  refine ⟨hmain, ?_, ?_, ?_⟩
  · rw [hmain]
    simp [csvTable]
  · rw [hmain]
    simp [csvTable]
  · rw [hmain]
    exact hlen4

/-- C6: the produced table has exactly four columns, in order and role:
`Timestamp` (the localized display string of the instant), `Latitude`
(`subpoint.latitude.degrees`), `Longitude` (`subpoint.longitude.degrees`)
and `Altitude (km)` (`subpoint.elevation.km`), with one entry per
simulated time step in every column. -/
theorem c6_four_columns (sat : Int → Subpoint) (startSec : Int)
    (d s : Nat) (tz : Tz) :
    (buildDF sat startSec d s tz).columns
      = ["Timestamp".toList, "Latitude".toList, "Longitude".toList,
          "Altitude (km)".toList]
    ∧ (buildDF sat startSec d s tz).columns.length = 4
    ∧ nrows (buildDF sat startSec d s tz) = (minutes d s).length
    ∧ (buildDF sat startSec d s tz).lats.length = nrows (buildDF sat startSec d s tz)
    ∧ (buildDF sat startSec d s tz).lons.length = nrows (buildDF sat startSec d s tz)
    ∧ (buildDF sat startSec d s tz).alts.length = nrows (buildDF sat startSec d s tz)
    ∧ (∀ i : Nat, (buildDF sat startSec d s tz).timestamps[i]? =
        ((observation_times startSec d s)[i]?).map (fun t => fmtTimestamp (localStamp tz t)))
    ∧ (∀ i : Nat, (buildDF sat startSec d s tz).lats[i]? =
        ((observation_times startSec d s)[i]?).map (fun t => (sat t).latitude_degrees))
    ∧ (∀ i : Nat, (buildDF sat startSec d s tz).lons[i]? =
        ((observation_times startSec d s)[i]?).map (fun t => (sat t).longitude_degrees))
    ∧ (∀ i : Nat, (buildDF sat startSec d s tz).alts[i]? =
        ((observation_times startSec d s)[i]?).map (fun t => (sat t).elevation_km)) := by
  refine ⟨rfl, rfl, ?_, ?_, ?_, ?_, ?_, ?_, ?_, ?_⟩
  all_goals simp [buildDF, nrows, observation_times]

/-! ### Download file name (source lines 109-115) -/

/-- Source line 113: `file_name=f"{selected_satellite_name.replace(' ', '_').lower()}_ground_track.csv"`.
Python's `str.replace(' ', '_')` maps each space character to an
underscore, and `str.lower()` lower-cases each character (ASCII semantics,
embedded by core `Char.toLower`; catalog satellite names are ASCII). -/
def file_name (selected : List Char) : List Char :=
  ((selected.map (fun c => if c = ' ' then '_' else c)).map Char.toLower)
    ++ "_ground_track.csv".toList

theorem toLower_eq_space (c : Char) (h : Char.toLower c = ' ') : c = ' ' := by
  unfold Char.toLower at h
  dsimp only at h
  split at h
  · next hc =>
    obtain ⟨h1, h2⟩ := hc
    have hc' : c = Char.ofNat c.toNat := (Char.ofNat_toNat c).symm
    rw [hc'] at h ⊢
    set n := c.toNat with hn
    clear_value n
    interval_cases n <;> simp_all
  · exact h

theorem toLower_not_upper (c : Char) :
    ¬ (65 ≤ (Char.toLower c).toNat ∧ (Char.toLower c).toNat ≤ 90) := by
  unfold Char.toLower
  dsimp only
  split
  · next hc =>
    obtain ⟨h1, h2⟩ := hc
    set n := c.toNat with hn
    clear_value n
    interval_cases n <;> decide
  · next hc =>
    intro hcon
    exact hc ⟨hcon.1, hcon.2⟩

/-- C5: the download file name is derived from the satellite's name by
replacing every space with an underscore and lower-casing every letter,
followed by the fixed suffix `_ground_track.csv`; consequently the full
file name contains no space and no upper-case ASCII letter, and past the
name stem it is exactly the fixed suffix. -/
theorem c5_file_name_derivation (selected : List Char) :
    file_name selected
      = selected.map (fun c => Char.toLower (if c = ' ' then '_' else c))
          ++ "_ground_track.csv".toList
    ∧ (file_name selected).drop selected.length = "_ground_track.csv".toList
    ∧ ' ' ∉ file_name selected
    ∧ ∀ c ∈ file_name selected, ¬ (65 ≤ c.toNat ∧ c.toNat ≤ 90) := by
  have h1 : file_name selected
      = selected.map (fun c => Char.toLower (if c = ' ' then '_' else c))
          ++ "_ground_track.csv".toList := by
    unfold file_name
    rw [List.map_map]
    rfl
  refine ⟨h1, ?_, ?_, ?_⟩
  · rw [h1]
    have h2 := List.drop_left
      (selected.map fun c => Char.toLower (if c = ' ' then '_' else c))
      ("_ground_track.csv".toList)
    rw [List.length_map] at h2
    exact h2
  · rw [h1]
    intro hmem
    rcases List.mem_append.mp hmem with h | h
    · rcases List.mem_map.mp h with ⟨a, _, ha⟩
      have := toLower_eq_space _ ha
      by_cases hsp : a = ' '
      · rw [if_pos hsp] at this
        exact absurd this (by decide)
      · rw [if_neg hsp] at this
        exact hsp this
    · exact absurd h (by decide)
  · intro c hc
    rw [h1] at hc
    rcases List.mem_append.mp hc with h | h
    · rcases List.mem_map.mp h with ⟨a, _, ha⟩
      rw [← ha]
      exact toLower_not_upper _
    · exact (by decide : ∀ x ∈ "_ground_track.csv".toList,
        ¬ (65 ≤ x.toNat ∧ x.toNat ≤ 90)) c h

theorem c5_witness :
    file_name ("ISS (ZARYA)".toList) = "iss_(zarya)_ground_track.csv".toList
    ∧ ' ' ∉ file_name ("ISS (ZARYA)".toList) :=
  ⟨by decide, (c5_file_name_derivation ("ISS (ZARYA)".toList)).2.2.1⟩

/-! ### Render control flow (source lines 24-44) -/

/-- Source line 35: the sidebar message `f"Error parsing TLE: {e}"`. -/
def errorMessageOf (e : List Char) : List Char := "Error parsing TLE: ".toList ++ e

/-- Observable outcome of one render: either halted by `st.stop()` after a
sidebar error, or a full page carrying the table, the CSV bytes and the
download file name. -/
inductive RenderResult where
  | halted (sidebarMessage : List Char)
  | page (df : DataFrame) (csvBytes : List Char) (fname : List Char)

/-- External actions recorded during a render. -/
inductive Ev where
  | fetchCatalog
  | sidebarShowError
deriving DecidableEq

/-- Source lines 26-36 (custom-TLE branch): `EarthSatellite(tle_line1,
tle_line2, tle_name)` is an external constructor that raises on malformed
orbital-element text; its outcome is embedded as an `Except` value.  The
`try/except` catches any such exception, shows `st.sidebar.error(...)` and
calls `st.stop()`, ending the render; on success the render proceeds to
the table, plot and download. -/
def customTleBranch (parsed : Except (List Char) (Int → Subpoint))
    (tle_name : List Char) (startSec : Int) (d s : Nat) (tz : Tz) :
    List Ev × RenderResult :=
  match parsed with
  | .error e => ([.sidebarShowError], .halted (errorMessageOf e))
  | .ok sat =>
      ([], .page (buildDF sat startSec d s tz)
        (to_csv (buildDF sat startSec d s tz)) (file_name tle_name))

/-- C3: whenever the orbital-element constructor fails (malformed custom
TLE text), the exception is caught: the render shows exactly one sidebar
error carrying the formatted parse message and halts there — it produces
no table, no plot and no download, and the failure does not escape. -/
theorem c3_malformed_tle_halts (e tle_name : List Char) (startSec : Int)
    (d s : Nat) (tz : Tz) :
    (customTleBranch (.error e) tle_name startSec d s tz).2
        = .halted (errorMessageOf e)
    ∧ (customTleBranch (.error e) tle_name startSec d s tz).1
        = [Ev.sidebarShowError]
    ∧ (∀ df csv fn, (customTleBranch (.error e) tle_name startSec d s tz).2
        ≠ RenderResult.page df csv fn) :=
  ⟨rfl, rfl, fun _ _ _ h => RenderResult.noConfusion h⟩

/-- Source lines 37-44 (catalog branch): `load.tle_file(tle_url)` is a
blocking network fetch, performed once and wrapped in no `try/except`; its
outcome is embedded as an `Except` value and the trace records each fetch
performed.  `choose` models the sidebar selectbox over the fetched
satellites (`by_name` / `selectbox`). -/
def catalogBranch {E : Type} (fetched : Except E (List (List Char × (Int → Subpoint))))
    (choose : List (List Char × (Int → Subpoint)) → (List Char × (Int → Subpoint)))
    (startSec : Int) (d s : Nat) (tz : Tz) :
    List Ev × Except E RenderResult :=
  ([.fetchCatalog],
    match fetched with
    | .error err => .error err
    | .ok sats =>
        .ok (.page (buildDF (choose sats).2 startSec d s tz)
          (to_csv (buildDF (choose sats).2 startSec d s tz))
          (file_name (choose sats).1)))

/-- C7: in catalog mode the catalog fetch is performed exactly once per
render, and a fetch failure is caught nowhere in the repository: the
failure propagates out of the render unchanged — it is neither retried
(the trace still holds exactly one fetch) nor converted into a sidebar
error, a halt, or any page. -/
theorem c7_fetch_once_and_unhandled {E : Type}
    (fetched : Except E (List (List Char × (Int → Subpoint))))
    (choose : List (List Char × (Int → Subpoint)) → (List Char × (Int → Subpoint)))
    (startSec : Int) (d s : Nat) (tz : Tz) (err : E) :
    ((catalogBranch fetched choose startSec d s tz).1.count Ev.fetchCatalog = 1)
    ∧ ((catalogBranch (.error err) choose startSec d s tz).2 = .error err)
    ∧ (∀ df csv fn, (catalogBranch (.error err) choose startSec d s tz).2
        ≠ .ok (RenderResult.page df csv fn))
    ∧ (∀ msg, (catalogBranch (.error err) choose startSec d s tz).2
        ≠ .ok (RenderResult.halted msg))
    ∧ Ev.sidebarShowError ∉ (catalogBranch fetched choose startSec d s tz).1 := by
  refine ⟨rfl, rfl, fun _ _ _ h => Except.noConfusion h,
    fun _ h => Except.noConfusion h, ?_⟩
  intro h
  rcases List.mem_singleton.mp h with h
  exact Ev.noConfusion h

/-! ### Downstream consumers of the table (source lines 79-115) -/

/-- Source lines 81-91: `px.scatter_geo(df, lat='Latitude',
lon='Longitude', color='Altitude (km)', hover_data=['Timestamp'], ...)` —
the plot reads four columns of the dataframe. -/
structure Plot where
  lat : List Int
  lon : List Int
  color : List Int
  hover : List (List Char)

def scatter_geo (df : DataFrame) : Plot :=
  { lat := df.lats, lon := df.lons, color := df.alts, hover := df.timestamps }

/-- Source lines 56-115 after satellite construction: the table is built
once; the plot (line 81), the on-screen table (line 106) and the CSV
download (lines 109-115) each read it and none writes to it.  The
components are (constructed table, figure, displayed table, exported
bytes). -/
def renderPage (sat : Int → Subpoint) (startSec : Int) (d s : Nat) (tz : Tz) :
    DataFrame × Plot × DataFrame × List Char :=
  let df := buildDF sat startSec d s tz
  (df, scatter_geo df, df, to_csv df)

/-- C8: rows enter the table in the order of the time series — the
underlying instants strictly increase row by row and the `i`-th row is a
function of the `i`-th instant — and the table is never mutated after
construction: the displayed table is the identical constructed value, the
plot is exactly the read of its four columns, and the exported CSV bytes
are a pure function of the same unchanged value. -/
theorem c8_rows_in_order_never_mutated (sat : Int → Subpoint)
    (startSec : Int) (d s : Nat) (tz : Tz) (hs : 0 < s) :
    (renderPage sat startSec d s tz).1 = buildDF sat startSec d s tz
    ∧ (renderPage sat startSec d s tz).2.2.1 = (renderPage sat startSec d s tz).1
    ∧ (renderPage sat startSec d s tz).2.2.2
        = to_csv ((renderPage sat startSec d s tz).1)
    ∧ (renderPage sat startSec d s tz).2.1
        = scatter_geo ((renderPage sat startSec d s tz).1)
    ∧ List.Chain' (· < ·) (observation_times startSec d s)
    ∧ (∀ i : Nat, ((renderPage sat startSec d s tz).1).timestamps[i]? =
        ((observation_times startSec d s)[i]?).map
          (fun t => fmtTimestamp (localStamp tz t))) :=
  ⟨rfl, rfl, rfl, rfl, observation_times_chain startSec d s hs,
    fun i => by simp [renderPage, buildDF]⟩

theorem c8_witness :
    0 < 30 ∧ (renderPage satConst 0 30 30 Tz.utc).2.2.1
      = (renderPage satConst 0 30 30 Tz.utc).1 :=
  ⟨by decide, (c8_rows_in_order_never_mutated satConst 0 30 30 Tz.utc (by decide)).2.1⟩

theorem c4_witness :
    parseCsv (to_csv (buildDF satConst 0 30 30 Tz.utc))
      = csvTable (buildDF satConst 0 30 30 Tz.utc) :=
  (c4_csv_round_trip satConst 0 30 30 Tz.utc).1

end SatTracker
